import Mathlib

/-!
# Verification of the konfigure tree wrapper (src/python/konfigure/core.py)

A shallow embedding of the konfigure `Config` tree library.  Python's single
object universe is modelled by the inductive type `Value`; the constructors
mirror the classes of `core.py`:

* `vnone`, `vint`, `vbool`, `vstr`, `vlist`, `vdict` — plain host values
  (`None`, `int`, `bool`, `str`, `list`, `dict`).  Python `float` is not
  modelled; no claim depends on floating point.
* `config`   — `Config` (a `dict` subclass; ordered entries).
* `safelist` — `SafeList` (a `list` subclass).
* `tmpl`     — `StringTemplate` (a `str` subclass; carries `raw_string`).
* `proxy`    — `SafeAttributeAccess` (wraps one value, `_wrapped_object`).

`isinstance` tests of the source become pattern matches; where Python's
subclassing matters (`bool ⊆ int`, `StringTemplate ⊆ str`, `Config ⊆ dict`,
`SafeList ⊆ list`) each branch below is annotated with the source line that
it translates.  Parent back-references (`_parent` / `_parent_key`) are pure
diagnostics in the source, are never read by any code path a claim touches,
and are not modelled.  Mapping entries are ordered association lists, which
is exactly the observable state of a Python `dict`.
-/

inductive Value where
  | vnone : Value
  | vint (n : Int) : Value
  | vbool (b : Bool) : Value
  | vstr (s : String) : Value
  | vlist (xs : List Value) : Value
  | vdict (es : List (String × Value)) : Value
  | config (es : List (String × Value)) : Value
  | safelist (xs : List Value) : Value
  | tmpl (s : String) : Value
  | proxy (w : Value) : Value
deriving Repr

/-- Keys of an ordered mapping, in stored order. -/
def keysOf (es : List (String × Value)) : List String := es.map Prod.fst

/-- First binding of `k` in an ordered mapping (Python dict keys are unique,
so first-match lookup coincides with dict lookup). -/
def lookupKey (es : List (String × Value)) (k : String) : Option Value :=
  match es with
  | [] => none
  | (k', v) :: rest => if k' = k then some v else lookupKey rest k

/-- Python `key.startswith('_')`. -/
def underscoreFirst (s : String) : Bool :=
  match s.data with
  | [] => false
  | c :: _ => c = '_'

/-- Python `str(n)` for an `int`. -/
def intStr (n : Int) : String := toString n

/-- Python `str(b)` for a `bool`. -/
def boolStr (b : Bool) : String := if b then "True" else "False"

/- `Config._convert_value` (core.py lines 187-206) together with the list
and entry recursions it triggers.  `convertEntries` is what `Config.__init__`
(lines 166-185) produces on a raw dict: `_convert_to_config` re-stores every
entry as `self[key] = self._convert_value(value, key)`, and the
`_process_value` applied by `__setitem__` is the identity on already-converted
values (theorem `processValue_convertValue` below); theorem
`initConfig_eq_convertEntries` validates this against the literal
store-by-store fold `initConfig`. -/
mutual

def convertValue : Value → Value
  | .vdict es => .config (convertEntries es)        -- line 189: dict, not Config
  | .vlist xs => .safelist (convertList xs)         -- line 191: list (raw list)
  | .safelist xs => .safelist (convertList xs)      -- line 191 also hits SafeList
  | .vnone => .vnone                                -- line 194: None stays None
  | .vint n => .proxy (.vint n)                     -- line 196: int/float/bool
  | .vbool b => .proxy (.vbool b)                   -- line 196 (bool is an int)
  | .vstr s => .tmpl s                              -- line 198: str
  | .tmpl s => .tmpl s                              -- line 198: StringTemplate is a str;
                                                    -- StringTemplate(t).raw_string = str(t) = t.raw_string
  | .config es => .config es                        -- line 200: re-parent only
  | .proxy w => .proxy (.proxy w)                   -- line 205: fallback wraps again

def convertList : List Value → List Value
  | [] => []
  | v :: vs => convertValue v :: convertList vs

def convertEntries : List (String × Value) → List (String × Value)
  | [] => []
  | (k, v) :: es => (k, convertValue v) :: convertEntries es

end

/-- Condition `key is not None and key in self and isinstance(self[key],
StringTemplate)` (core.py line 246). -/
def holdsTemplate (es : List (String × Value)) (key : Option String) : Bool :=
  match key with
  | none => false
  | some k =>
    match lookupKey es k with
    | some (.tmpl _) => true
    | _ => false

/- `Config._process_value` (core.py lines 237-252).  `es` is the current
dict contents of `self` (consulted only by the line-246 template-overwrite
test), `key` the optional key argument. -/
mutual

def processValue (es : List (String × Value)) (key : Option String) : Value → Value
  | .vdict ds => .config (convertEntries ds)        -- line 239: dict, not Config
  | .vlist xs => .safelist (processList es xs)      -- line 241: list, not SafeList;
                                                    -- items processed with key=None
  | .vstr s => .tmpl s                              -- line 244: str, not StringTemplate
  | .vint n =>                                      -- line 246 before line 250
    if holdsTemplate es key then .tmpl (intStr n) else .proxy (.vint n)
  | .vbool b =>                                     -- bool is an int: line 246 applies
    if holdsTemplate es key then .tmpl (boolStr b) else .proxy (.vbool b)
  | .vnone => .vnone                                -- line 248
  | .config ds => .config ds                        -- falls through, returned unchanged
  | .safelist xs => .safelist xs                    -- line 241 excludes SafeList
  | .tmpl s => .tmpl s                              -- line 244 excludes StringTemplate
  | .proxy w => .proxy w                            -- line 250 excludes SafeAttributeAccess

def processList (es : List (String × Value)) : List Value → List Value
  | [] => []
  | v :: vs => processValue es none v :: processList es vs

end

/-- Replace the value stored under `k` in place if present, else append —
exactly a Python dict store's effect on insertion order. -/
def setEntry (es : List (String × Value)) (k : String) (v : Value) :
    List (String × Value) :=
  if es.any (fun p => p.1 = k) then
    es.map (fun p => if p.1 = k then (k, v) else p)
  else es ++ [(k, v)]

/-- The bookkeeping key names special-cased by `__setitem__` (core.py line 256). -/
def bkNames : List String := ["_yaml_path", "_parent", "_parent_key"]

/-- Model of `Config.__setitem__` (core.py lines 254-260): bookkeeping names are stored
raw, everything else passes through `_process_value`. -/
def setItem (es : List (String × Value)) (k : String) (v : Value) :
    List (String × Value) :=
  if bkNames.contains k then setEntry es k v
  else setEntry es k (processValue es (some k) v)

/-- Model of `Config._convert_to_config` (core.py lines 182-185): iterate over a
snapshot of the raw items, re-storing each through `__setitem__` after
`_convert_value`. -/
def initConfigAux : List (String × Value) → List (String × Value) →
    List (String × Value)
  | [], st => st
  | (k, v) :: todo, st => initConfigAux todo (setItem st k (convertValue v))

/-- Model of `Config.__init__` on a raw dict (core.py lines 166-180): the dict is
seeded with the raw entries, then `_convert_to_config` runs. -/
def initConfig (es : List (String × Value)) : List (String × Value) :=
  initConfigAux es es

/- The inner `_serialize` of `Config._to_serializable` (core.py lines
287-315).  `toSerializable` is the top-level loop (lines 309-315), which
skips keys starting with `_`; the branch translating raw dicts (line 298)
does not skip them.  The source's final `str(v)` fallback (line 303) is for
host objects outside this embedding's universe and has no corresponding
constructor. -/
mutual

def serializeVal : Value → Value
  | .config es => .vdict (toSerializable es)        -- line 290
  | .tmpl s => .vstr s                              -- line 292: raw_string
  | .proxy w => w                                   -- line 294: _wrapped_object
  | .vlist xs => .vlist (serializeList xs)          -- line 296
  | .safelist xs => .vlist (serializeList xs)       -- line 296
  | .vdict es => .vdict (serializeEntries es)       -- line 298: raw dict, no skip
  | .vstr s => .vstr s                              -- line 300
  | .vint n => .vint n
  | .vbool b => .vbool b
  | .vnone => .vnone

def serializeList : List Value → List Value
  | [] => []
  | v :: vs => serializeVal v :: serializeList vs

def serializeEntries : List (String × Value) → List (String × Value)
  | [] => []
  | (k, v) :: es => (k, serializeVal v) :: serializeEntries es

def toSerializable : List (String × Value) → List (String × Value)
  | [] => []
  | (k, v) :: es =>
    if underscoreFirst k then toSerializable es
    else (k, serializeVal v) :: toSerializable es

end

/-- Result of a Python attribute access in the embedding: a data value, a
bound method resolved on the class, a successfully resolved internal
(bookkeeping / private) attribute, or a raised `AttributeError`. -/
inductive Attr where
  | val (v : Value) : Attr
  | method (name : String) : Attr
  | internal (name : String) : Attr
  | attrError : Attr
deriving Repr

/-- The dict-method names special-cased by `Config.__getattribute__`
(core.py line 215). -/
def reservedNames : List String :=
  ["keys", "values", "get", "pop", "popitem", "setdefault", "update",
   "clear", "copy", "items"]

/-- Underscore-named attributes that `super().__getattribute__` resolves on a
`Config` instance: the three bookkeeping fields set in `__init__` plus the
class's own private methods.  Dunder attributes inherited from `dict`/`object`
are not enumerated; no claim touches them. -/
def configPrivateNames : List String :=
  ["_yaml_path", "_parent", "_parent_key", "_convert_to_config",
   "_convert_value", "_process_value", "_to_serializable"]

/-- Model of `Config.__getattribute__` (core.py lines 208-235).  The only non-dunder
attribute a plain `dict` owns besides the line-215 list is `fromkeys`, hence
the final fallback: any other missing name ends in the line-234
`except AttributeError: return None`. -/
def getattrConfig (es : List (String × Value)) (key : String) : Attr :=
  if underscoreFirst key then                        -- line 211: no dict lookup at all
    if configPrivateNames.contains key then .internal key else .attrError
  else if reservedNames.contains key then            -- line 215
    match lookupKey es key with
    | some v => .val v                               -- line 218: data key wins
    | none => .method key                            -- line 222: bound dict method
  else
    match lookupKey es key with
    | some v => .val v                               -- line 226
    | none =>
      if key = "fromkeys" then .method key           -- line 233 resolves a dict method
      else .val .vnone                               -- lines 234-235: AttributeError → None

/-- Attribute access over the whole value universe.

* `Config` → `getattrConfig`.
* `None` (the stored representation of null, core.py line 195) has no
  non-dunder attributes in Python, so access raises `AttributeError`.
* `StringTemplate.__getattr__` (core.py lines 111-113) turns a missing
  attribute into `None`; `raw_string` and `render` exist.  The host `str`
  methods (`upper`, …) are not enumerated — no claim reads them.
* `SafeAttributeAccess.__getattr__` (core.py lines 46-51) forwards to the
  wrapped object and turns `AttributeError` into `None`; the wrapped
  primitive's own attributes are not enumerated — no claim reads them.
* raw `int`/`bool`/`str`/`list`/`dict` values have only host builtin
  attributes, which are likewise outside the modelled name space; a missing
  name raises. -/
def getattrValue : Value → String → Attr
  | .config es, key => getattrConfig es key
  | .vnone, _ => .attrError
  | .tmpl s, key =>
    if key = "raw_string" then .val (.vstr s)
    else if key = "render" then .method "render"
    else .val .vnone
  | .proxy w, key =>
    if key = "_wrapped_object" then .val w
    else .val .vnone
  | .vint _, _ => .attrError
  | .vbool _, _ => .attrError
  | .vstr _, _ => .attrError
  | .vlist _, _ => .attrError
  | .vdict _, _ => .attrError
  | .safelist _, _ => .attrError

/-- Invoking the class-level enumeration operation of a `dict` subclass on a
`Config` (e.g. `dict.keys(node)`), which stays callable regardless of any
same-named data key.  `items` tuples are modelled as two-element lists. -/
def callDictMethod (name : String) (es : List (String × Value)) : Option Value :=
  if name = "keys" then some (.vlist (es.map (fun p => .vstr p.1)))
  else if name = "values" then some (.vlist (es.map Prod.snd))
  else if name = "items" then
    some (.vlist (es.map (fun p => .vlist [.vstr p.1, p.2])))
  else none

/-- Python truthiness (`bool(x)`) over the embedded universe;
`SafeAttributeAccess.__bool__` (core.py line 85) delegates to the wrapped
object, `NoneType` is falsy, containers are truthy when non-empty. -/
def pyTruthy : Value → Bool
  | .vnone => false
  | .vint n => !(n = 0)
  | .vbool b => b
  | .vstr s => !(s = "")
  | .vlist xs => !xs.isEmpty
  | .vdict es => !es.isEmpty
  | .config es => !es.isEmpty
  | .safelist xs => !xs.isEmpty
  | .tmpl s => !(s = "")
  | .proxy w => pyTruthy w

/-- Python `x == None` over the embedded universe.  `SafeAttributeAccess`
compares its wrapped object (core.py lines 71-74), `StringTemplate` compares
`raw_string` (lines 157-160, never equal to `None`), every other embedded
value compares unequal to `None`. -/
def eqNone : Value → Bool
  | .vnone => true
  | .proxy w => eqNone w
  | _ => false

/-- Python `'\x7b\x7b' in result` (core.py lines 140 and 145): does the
character list contain two consecutive opening braces? -/
def hasDoubleBrace : List Char → Bool
  | [] => false
  | [_] => false
  | c :: c2 :: rest => (c = '\x7b' && c2 = '\x7b') || hasDoubleBrace (c2 :: rest)

/-- A string without any opening brace contains no Jinja syntax at all; the
external template engine expands such a string to itself. -/
def braceFree (s : String) : Bool := s.data.all (fun c => !(c = '\x7b'))

/-- Model of `StringTemplate.render` (core.py lines 115-149).  The external Jinja
engine, partially applied to the fixed keyword bindings, is the function
`expand : String → String` (the engine and the bindings map are external
collaborators, spec §6).  The code renders the stored source once, then — at
most twice more — re-renders the previous *result* whenever it still contains
`'\x7b\x7b'`.  The embedding is a pure function: the source never reassigns
`self.raw_string` and copies `kwargs` before use, so neither the stored
source nor the bindings are mutated. -/
def renderTmpl (src : String) (expand : String → String) : String :=
  let r1 := expand src                               -- line 137: first pass
  if hasDoubleBrace r1.data then                     -- line 140
    let r2 := expand r1                              -- line 142: second pass
    if hasDoubleBrace r2.data then expand r2 else r2 -- lines 145-147: third pass
  else r1

/-- A `Config` object at the loader/dumper level: its dict contents plus the
`_yaml_path` bookkeeping attribute (core.py line 177). -/
structure ConfigObj where
  entries : List (String × Value)
  yamlPath : Option String
deriving Repr

/-- What the filesystem offers at the absolutized location: no file at all,
a file the external parser rejects, or a successfully parsed plain value
(`yaml.safe_load`'s result; `none`-like empty documents arrive as `vnone`). -/
inductive LoadSource where
  | missing : LoadSource
  | unparsable : LoadSource
  | parsed (d : Value) : LoadSource

/-- Python `dict(data)` on a non-dict argument: accepts an iterable of
two-element sequences (modelled for lists of two-element lists whose keys are
strings) and fails otherwise.  Exotic host coercions (e.g. two-character
strings as pairs) are unreachable from the claims and not modelled. -/
def pairOfValue : Value → Option (String × Value)
  | .vlist [.vstr k, v] => some (k, v)
  | _ => none

def dictCoerce : Value → Option (List (String × Value))
  | .vdict es => some es
  | .config es => some es
  | .vlist xs => xs.mapM pairOfValue
  | _ => none

/-- Model of `load` (core.py lines 361-390), given what the filesystem holds at the
absolutized path.  Returns the resulting `ConfigObj` and whether a
diagnostic warning was printed.  The function is total: every branch of the
source returns a `Config` (the whole parsed-file branch sits inside
`try ... except Exception`), which is the never-raises contract. -/
def loadModel (src : LoadSource) (absPath : String) : ConfigObj × Bool :=
  match src with
  | .missing => (⟨[], some absPath⟩, false)          -- lines 374-377
  | .unparsable => (⟨[], some absPath⟩, true)        -- lines 385-390
  | .parsed d =>
    let d' := if pyTruthy d then d else .vdict []    -- line 381: `or` falls to empty dict
    match dictCoerce d' with
    | some es => (⟨initConfig es, some absPath⟩, false) -- lines 382-384
    | none => (⟨[], some absPath⟩, true)             -- Config(data) raised; caught at 385

/-- The programmer errors `dump` raises (core.py lines 403-409). -/
inductive DumpErr where
  | typeError : DumpErr                              -- line 404
  | valueError : DumpErr                             -- line 409
deriving Repr, DecidableEq

/-- Python truthiness of a path value that is `None` or a string. -/
def pathTruthy : Option String → Bool
  | none => false
  | some s => !(s = "")

/-- Resolution `yaml_path = file_path or config._yaml_path` (core.py line 407). -/
def resolvePath (filePath attrPath : Option String) : Option String :=
  if pathTruthy filePath then filePath else attrPath

/-- Model of `dump` (core.py lines 393-437).  `arg = none` models an argument that is
not a `Config` instance.  `writeOk` abstracts the `try` block (directory
creation, serialization and the write itself, lines 414-434): `true` when it
completes, `false` when any exception is raised inside it — which the
`except` arm turns into a printed diagnostic and the return value `False`. -/
def dumpModel (arg : Option ConfigObj) (filePath : Option String)
    (writeOk : Bool) : Except DumpErr Bool :=
  match arg with
  | none => .error .typeError                        -- lines 403-404
  | some c =>
    let yp := resolvePath filePath c.yamlPath        -- line 407
    if pathTruthy yp then
      if writeOk then .ok true else .ok false        -- lines 434-437
    else .error .valueError                          -- lines 408-409

/-- Is a value plain parser-level data (scalar/null/sequence/mapping built
from the host primitives, with the unique-key property every Python dict
has)? -/
def noDupKeysB : List String → Bool
  | [] => true
  | k :: ks => !(ks.contains k) && noDupKeysB ks

mutual

def plainB : Value → Bool
  | .vnone => true
  | .vint _ => true
  | .vbool _ => true
  | .vstr _ => true
  | .vlist xs => plainListB xs
  | .vdict es => noDupKeysB (keysOf es) && plainEntriesB es
  | .config _ => false
  | .safelist _ => false
  | .tmpl _ => false
  | .proxy _ => false

def plainListB : List Value → Bool
  | [] => true
  | v :: vs => plainB v && plainListB vs

def plainEntriesB : List (String × Value) → Bool
  | [] => true
  | (_, v) :: es => plainB v && plainEntriesB es

end

/- No mapping key at any nesting level of a plain value starts with an
underscore. -/
mutual

def noUnderscoreB : Value → Bool
  | .vlist xs => noUnderscoreListB xs
  | .vdict es => noUnderscoreEntriesB es
  | _ => true

def noUnderscoreListB : List Value → Bool
  | [] => true
  | v :: vs => noUnderscoreB v && noUnderscoreListB vs

def noUnderscoreEntriesB : List (String × Value) → Bool
  | [] => true
  | (k, v) :: es =>
    !(underscoreFirst k) && noUnderscoreB v && noUnderscoreEntriesB es

end

/- The shape invariant of converted trees (spec §3 invariant (b)): every
mapping is a `Config`, every sequence a `SafeList`, every string a
`StringTemplate`, every primitive a proxy around an `int`/`bool`, and null
is bare `None`. -/
mutual

def convertedB : Value → Bool
  | .vnone => true
  | .tmpl _ => true
  | .proxy (.vint _) => true
  | .proxy (.vbool _) => true
  | .config es => convertedEntriesB es
  | .safelist xs => convertedListB xs
  | _ => false

def convertedListB : List Value → Bool
  | [] => true
  | v :: vs => convertedB v && convertedListB vs

def convertedEntriesB : List (String × Value) → Bool
  | [] => true
  | (_, v) :: es => convertedB v && convertedEntriesB es

end

/- No mapping (raw or wrapped) anywhere in a serialized value carries a key
starting with an underscore. -/
mutual

def serNoUnderscoreB : Value → Bool
  | .vlist xs => serNoUnderscoreListB xs
  | .vdict es => serNoUnderscoreEntriesB es
  | .config es => serNoUnderscoreEntriesB es
  | .safelist xs => serNoUnderscoreListB xs
  | .proxy w => serNoUnderscoreB w
  | _ => true

def serNoUnderscoreListB : List Value → Bool
  | [] => true
  | v :: vs => serNoUnderscoreB v && serNoUnderscoreListB vs

def serNoUnderscoreEntriesB : List (String × Value) → Bool
  | [] => true
  | (k, v) :: es =>
    !(underscoreFirst k) && serNoUnderscoreB v && serNoUnderscoreEntriesB es

end

/-- Lemma: `_process_value` is the identity on every value `_convert_value` can
produce: the re-store performed by `_convert_to_config` through
`__setitem__` never changes a converted value. -/
theorem processValue_convertValue (es : List (String × Value))
    (key : Option String) (v : Value) :
    processValue es key (convertValue v) = convertValue v := by
  cases v <;> simp [convertValue, processValue]

/-- Lemma: `__setitem__` applied to an already-converted value reduces to the plain
dict store, on bookkeeping keys and data keys alike. -/
theorem setItem_convertValue (st : List (String × Value)) (k : String)
    (v : Value) : setItem st k (convertValue v) = setEntry st k (convertValue v) := by
  unfold setItem
  split <;> simp [processValue_convertValue]

theorem keysOf_convertEntries (es : List (String × Value)) :
    keysOf (convertEntries es) = keysOf es := by
  induction es with
  | nil => rfl
  | cons p rest ih =>
    obtain ⟨k, v⟩ := p
    simp [convertEntries, keysOf] at ih ⊢
    exact ih

theorem convertEntries_append (a b : List (String × Value)) :
    convertEntries (a ++ b) = convertEntries a ++ convertEntries b := by
  induction a with
  | nil => rfl
  | cons p rest ih =>
    obtain ⟨k, v⟩ := p
    simp [convertEntries, ih]

theorem keysOf_append (a b : List (String × Value)) :
    keysOf (a ++ b) = keysOf a ++ keysOf b := by
  simp [keysOf]

theorem map_no_key (a : List (String × Value)) (k : String) (v : Value)
    (h : k ∉ keysOf a) :
    a.map (fun p => if p.1 = k then (k, v) else p) = a := by
  induction a with
  | nil => rfl
  | cons p rest ih =>
    obtain ⟨k', v'⟩ := p
    have hcons : keysOf ((k', v') :: rest) = k' :: keysOf rest := rfl
    rw [hcons] at h
    have h1 : ¬ (k' = k) := fun e => h (by rw [e]; exact List.mem_cons_self _ _)
    have h2 : k ∉ keysOf rest := fun e => h (List.mem_cons_of_mem _ e)
    simp [h1, ih h2]

theorem noDupKeysB_iff (ks : List String) : noDupKeysB ks = true ↔ ks.Nodup := by
  induction ks with
  | nil => simp [noDupKeysB]
  | cons k rest ih =>
    simp [noDupKeysB, ih, List.nodup_cons]

theorem initConfigAux_general : ∀ (todo done : List (String × Value)),
    (keysOf (done ++ todo)).Nodup →
    initConfigAux todo (convertEntries done ++ todo) =
      convertEntries (done ++ todo)
  | [], done, _ => by simp [initConfigAux]
  | (k, v) :: rest, done, h => by
    rw [show keysOf (done ++ (k, v) :: rest) = keysOf done ++ k :: keysOf rest
      from by simp [keysOf]] at h
    have hk_done : k ∉ keysOf done := fun hmem =>
      (List.disjoint_of_nodup_append h) hmem (by simp)
    have hk_rest : k ∉ keysOf rest :=
      (List.nodup_cons.1 (h.of_append_right)).1
    have hany : (convertEntries done ++ (k, v) :: rest).any (fun p => p.1 = k) = true := by
      simp
    have hstep : setItem (convertEntries done ++ (k, v) :: rest) k (convertValue v) =
        convertEntries (done ++ [(k, v)]) ++ rest := by
      rw [setItem_convertValue]
      unfold setEntry
      rw [if_pos hany, List.map_append]
      rw [map_no_key _ _ _ (by rw [keysOf_convertEntries]; exact hk_done)]
      simp [map_no_key rest k (convertValue v) hk_rest, convertEntries_append,
        convertEntries]
    have hnd' : (keysOf ((done ++ [(k, v)]) ++ rest)).Nodup := by
      rw [show keysOf ((done ++ [(k, v)]) ++ rest) = keysOf done ++ k :: keysOf rest
        from by simp [keysOf]]
      exact h
    calc initConfigAux ((k, v) :: rest) (convertEntries done ++ (k, v) :: rest)
        = initConfigAux rest (convertEntries (done ++ [(k, v)]) ++ rest) := by
          rw [initConfigAux, hstep]
      _ = convertEntries ((done ++ [(k, v)]) ++ rest) :=
          initConfigAux_general rest (done ++ [(k, v)]) hnd'
      _ = convertEntries (done ++ (k, v) :: rest) := by simp

/-- Validation of the conversion embedding: on a dict with unique keys (every
Python dict), the literal `__init__` fold — seed with the raw entries, then
re-store each through `_convert_value` and `__setitem__` — produces exactly
the entrywise conversion `convertEntries`. -/
theorem initConfig_eq_convertEntries (es : List (String × Value))
    (h : noDupKeysB (keysOf es) = true) : initConfig es = convertEntries es := by
  have := initConfigAux_general es [] (by simpa using (noDupKeysB_iff _).1 h)
  simpa [initConfig, convertEntries] using this

/- Serialization inverts conversion on plain data whose mapping keys never
start with an underscore — proved by mutual structural induction across the
value/list/entry recursions of `_convert_value` and `_serialize`. -/
mutual

theorem serialize_convert_val : ∀ v : Value, plainB v = true →
    noUnderscoreB v = true → serializeVal (convertValue v) = v
  | .vnone, _, _ => rfl
  | .vint _, _, _ => rfl
  | .vbool _, _, _ => rfl
  | .vstr _, _, _ => rfl
  | .vlist xs, h1, h2 => by
    have := serialize_convert_list xs (by simpa [plainB] using h1)
      (by simpa [noUnderscoreB] using h2)
    simp [convertValue, serializeVal, this]
  | .vdict es, h1, h2 => by
    have h1' : plainEntriesB es = true := by
      simp [plainB] at h1
      exact h1.2
    have h2' : noUnderscoreEntriesB es = true := by
      simpa [noUnderscoreB] using h2
    have := serialize_convert_entries es h1' h2'
    simp [convertValue, serializeVal, this]
  | .config _, h1, _ => by simp [plainB] at h1
  | .safelist _, h1, _ => by simp [plainB] at h1
  | .tmpl _, h1, _ => by simp [plainB] at h1
  | .proxy _, h1, _ => by simp [plainB] at h1

theorem serialize_convert_list : ∀ xs : List Value, plainListB xs = true →
    noUnderscoreListB xs = true → serializeList (convertList xs) = xs
  | [], _, _ => rfl
  | v :: vs, h1, h2 => by
    simp [plainListB] at h1
    simp [noUnderscoreListB] at h2
    simp [convertList, serializeList,
      serialize_convert_val v h1.1 h2.1, serialize_convert_list vs h1.2 h2.2]

theorem serialize_convert_entries : ∀ es : List (String × Value),
    plainEntriesB es = true → noUnderscoreEntriesB es = true →
    toSerializable (convertEntries es) = es
  | [], _, _ => rfl
  | (k, v) :: es, h1, h2 => by
    simp [plainEntriesB] at h1
    simp [noUnderscoreEntriesB] at h2
    simp [convertEntries, toSerializable, h2.1.1,
      serialize_convert_val v h1.1 h2.1.2, serialize_convert_entries es h1.2 h2.2]

end

/-- The top-level serialization loop keeps exactly the keys that do not start
with an underscore, in stored order. -/
theorem keysOf_toSerializable (es : List (String × Value)) :
    keysOf (toSerializable es) = (keysOf es).filter (fun k => !underscoreFirst k) := by
  induction es with
  | nil => rfl
  | cons p rest ih =>
    obtain ⟨k, v⟩ := p
    by_cases hu : underscoreFirst k
    · simp [toSerializable, keysOf, hu, List.filter] at ih ⊢
      exact ih
    · simp [toSerializable, keysOf, hu, List.filter] at ih ⊢
      exact ih

/-- No underscore-prefixed key survives the top-level serialization loop. -/
theorem lookup_toSerializable_underscore (es : List (String × Value))
    (k : String) (h : underscoreFirst k = true) :
    lookupKey (toSerializable es) k = none := by
  induction es with
  | nil => rfl
  | cons p rest ih =>
    obtain ⟨k', v⟩ := p
    by_cases hu : underscoreFirst k'
    · simpa [toSerializable, hu] using ih
    · have hne : ¬ (k' = k) := by
        intro e
        rw [e] at hu
        exact hu h
      simpa [toSerializable, hu, lookupKey, hne] using ih

/- Serializing a converted tree yields a structure with no underscore-prefixed
mapping key at any nesting level. -/
mutual

theorem serialize_no_underscore_val : ∀ v : Value, convertedB v = true →
    serNoUnderscoreB (serializeVal v) = true
  | .vnone, _ => rfl
  | .tmpl _, _ => rfl
  | .proxy (.vint _), _ => rfl
  | .proxy (.vbool _), _ => rfl
  | .config es, h => by
    have := serialize_no_underscore_entries es (by simpa [convertedB] using h)
    simpa [serializeVal, serNoUnderscoreB] using this
  | .safelist xs, h => by
    have := serialize_no_underscore_list xs (by simpa [convertedB] using h)
    simpa [serializeVal, serNoUnderscoreB] using this
  | .vint _, h => by simp [convertedB] at h
  | .vbool _, h => by simp [convertedB] at h
  | .vstr _, h => by simp [convertedB] at h
  | .vlist _, h => by simp [convertedB] at h
  | .vdict _, h => by simp [convertedB] at h
  | .proxy .vnone, h => by simp [convertedB] at h
  | .proxy (.vstr _), h => by simp [convertedB] at h
  | .proxy (.vlist _), h => by simp [convertedB] at h
  | .proxy (.vdict _), h => by simp [convertedB] at h
  | .proxy (.config _), h => by simp [convertedB] at h
  | .proxy (.safelist _), h => by simp [convertedB] at h
  | .proxy (.tmpl _), h => by simp [convertedB] at h
  | .proxy (.proxy _), h => by simp [convertedB] at h

theorem serialize_no_underscore_list : ∀ xs : List Value,
    convertedListB xs = true → serNoUnderscoreListB (serializeList xs) = true
  | [], _ => rfl
  | v :: vs, h => by
    simp [convertedListB] at h
    simp [serializeList, serNoUnderscoreListB,
      serialize_no_underscore_val v h.1, serialize_no_underscore_list vs h.2]

theorem serialize_no_underscore_entries : ∀ es : List (String × Value),
    convertedEntriesB es = true →
    serNoUnderscoreEntriesB (toSerializable es) = true
  | [], _ => rfl
  | (k, v) :: es, h => by
    simp [convertedEntriesB] at h
    by_cases hu : underscoreFirst k
    · simpa [toSerializable, hu] using serialize_no_underscore_entries es h.2
    · simp [toSerializable, hu, serNoUnderscoreEntriesB,
        serialize_no_underscore_val v h.1, serialize_no_underscore_entries es h.2]

end

/-- Every character the host's decimal printer emits is a digit-class
character, never an opening brace. -/
theorem digitChar_ne_brace (n : Nat) : Nat.digitChar n ≠ '\x7b' := by
  by_cases h : n < 16
  · interval_cases n <;> decide
  · unfold Nat.digitChar
    repeat rw [if_neg (by omega)]
    decide

theorem toDigitsCore_ne_brace (b : Nat) :
    ∀ (fuel n : Nat) (ds : List Char), (∀ c ∈ ds, c ≠ '\x7b') →
    ∀ c ∈ Nat.toDigitsCore b fuel n ds, c ≠ '\x7b' := by
  intro fuel
  induction fuel with
  | zero =>
    intro n ds h c hc
    exact h c hc
  | succ f ih =>
    intro n ds h c hc
    rw [Nat.toDigitsCore] at hc
    by_cases h0 : n / b = 0
    · simp only [h0, if_pos] at hc
      rcases List.mem_cons.1 hc with rfl | hmem
      · exact digitChar_ne_brace _
      · exact h c hmem
    · simp only [if_neg h0] at hc
      refine ih (n / b) (Nat.digitChar (n % b) :: ds) ?_ c hc
      intro c' hc'
      rcases List.mem_cons.1 hc' with rfl | hmem
      · exact digitChar_ne_brace _
      · exact h c' hmem

theorem natRepr_braceFree (n : Nat) : braceFree (Nat.repr n) = true := by
  have h := toDigitsCore_ne_brace 10 (n + 1) n [] (by intro c hc; cases hc)
  simp [braceFree, Nat.repr, Nat.toDigits, List.asString]
  intro c hc
  exact h c hc

/-- Python's `str` of an `int` never contains an opening brace. -/
theorem intStr_braceFree (n : Int) : braceFree (intStr n) = true := by
  cases n with
  | ofNat m =>
    have h := natRepr_braceFree m
    simpa [intStr, toString] using h
  | negSucc m =>
    have h := natRepr_braceFree (m + 1)
    simp [braceFree, toString, intStr] at h ⊢
    exact h

theorem no_marker_of_all_ne (l : List Char) (h : ∀ c ∈ l, ¬ (c = '\x7b')) :
    hasDoubleBrace l = false := by
  induction l with
  | nil => rfl
  | cons c rest ih =>
    have hc : ¬ (c = '\x7b') := h c (List.mem_cons_self _ _)
    have hrest := ih (fun c' hc' => h c' (List.mem_cons_of_mem _ hc'))
    cases rest with
    | nil => rfl
    | cons c2 rest2 =>
      simp [hasDoubleBrace, hc] at hrest ⊢
      exact hrest

/-- A brace-free string contains no double-brace template marker. -/
theorem braceFree_no_marker (s : String) (h : braceFree s = true) :
    hasDoubleBrace s.data = false := by
  refine no_marker_of_all_ne s.data ?_
  simpa [braceFree, List.all_eq_true] using h

/-- C1 (counterexample): the claim says that after reading a missing path
segment every further chained attribute access also returns a value, with
final result null.  On the empty tree `Config({})`, reading `a` yields the
host `None` (not the unused `NoneWrapper`), and the chained access `.b` on
that `None` raises `AttributeError` — it does not return a value. -/
theorem C1_counterexample :
    getattrValue (.config []) "a" = .val .vnone ∧
    getattrValue .vnone "b" = .attrError ∧
    Attr.attrError ≠ Attr.val .vnone :=
  ⟨rfl, rfl, fun h => Attr.noConfusion h⟩

/-- C1 (amended): for every tree and every attribute name that is not
underscore-prefixed, is none of the reserved dict-method names, is not
`fromkeys`, and is not a data key, the first read returns the host null
without raising; but any further chained attribute access on that null
raises `AttributeError` instead of yielding null. -/
theorem C1_missing_attr_none_chain_raises (es : List (String × Value))
    (key : String) (h1 : underscoreFirst key = false)
    (h2 : reservedNames.contains key = false) (h3 : key ≠ "fromkeys")
    (h4 : lookupKey es key = none) :
    getattrValue (.config es) key = .val .vnone ∧
    ∀ k2 : String, getattrValue .vnone k2 = .attrError := by
  have h2' : key ∉ reservedNames := by
    intro hm
    rw [show reservedNames.contains key = List.elem key reservedNames from rfl] at h2
    exact absurd (List.elem_iff.2 hm) (by rw [h2]; exact Bool.false_ne_true)
  constructor
  · simp [getattrValue, getattrConfig, h1, h2', h3, h4]
  · intro k2
    rfl

theorem C1_missing_attr_none_chain_raises_witness :
    underscoreFirst "alpha" = false ∧ reservedNames.contains "alpha" = false ∧
    "alpha" ≠ "fromkeys" ∧ lookupKey [] "alpha" = none ∧
    (getattrValue (.config []) "alpha" = .val .vnone ∧
      ∀ k2 : String, getattrValue .vnone k2 = .attrError) :=
  ⟨rfl, rfl, by decide, rfl,
    C1_missing_attr_none_chain_raises [] "alpha" rfl rfl (by decide) rfl⟩

/-- C2 (counterexample): `serialize(convert(x)) == x` fails on the plain
mapping `x = {"_a": 1}` — the converted tree serializes to the empty
mapping, because `_to_serializable` drops every key starting with an
underscore even when it is ordinary user data. -/
theorem C2_counterexample :
    serializeVal (convertValue (.vdict [("_a", .vint 1)])) = .vdict [] ∧
    plainB (.vdict [("_a", .vint 1)]) = true ∧
    Value.vdict [] ≠ .vdict [("_a", .vint 1)] :=
  ⟨rfl, rfl, by simp⟩

/-- C2 (amended): for every plain input built from scalars, strings, null,
ordered mappings and sequences in which no mapping key at any level starts
with an underscore, serializing the converted tree returns the input exactly
(mapping key order preserved); for mapping inputs the same holds for the
literal `Config.__init__` store-by-store construction. -/
theorem C2_roundtrip_no_underscore (v : Value) (h1 : plainB v = true)
    (h2 : noUnderscoreB v = true) :
    serializeVal (convertValue v) = v ∧
    (∀ es, v = .vdict es → toSerializable (initConfig es) = es) := by
  refine ⟨serialize_convert_val v h1 h2, ?_⟩
  rintro es rfl
  have hnd : noDupKeysB (keysOf es) = true := by
    simp [plainB] at h1
    exact h1.1
  have hpe : plainEntriesB es = true := by
    simp [plainB] at h1
    exact h1.2
  have hue : noUnderscoreEntriesB es = true := by
    simpa [noUnderscoreB] using h2
  rw [initConfig_eq_convertEntries es hnd]
  exact serialize_convert_entries es hpe hue

theorem C2_roundtrip_no_underscore_witness :
    plainB (.vdict [("a", .vint 1), ("b", .vstr "x")]) = true ∧
    noUnderscoreB (.vdict [("a", .vint 1), ("b", .vstr "x")]) = true ∧
    serializeVal (convertValue (.vdict [("a", .vint 1), ("b", .vstr "x")])) =
      .vdict [("a", .vint 1), ("b", .vstr "x")] :=
  ⟨rfl, rfl,
    (C2_roundtrip_no_underscore (.vdict [("a", .vint 1), ("b", .vstr "x")]) rfl rfl).1⟩

/-- C3 (counterexample): the claim says any attribute access on the stored
null yields the sentinel itself.  The stored null is the host `None`
(core.py line 195), and attribute access on it raises `AttributeError`
rather than yielding the sentinel. -/
theorem C3_counterexample :
    getattrValue .vnone "name" = .attrError ∧
    Attr.attrError ≠ Attr.val .vnone :=
  ⟨rfl, fun h => Attr.noConfusion h⟩

/-- C3 (amended): every null assigned into or loaded into a tree is stored
and returned as the shared host `None` singleton — never wrapped in a proxy
— its boolean coercion is false, and among converted plain values only the
null itself compares equal to null; but attribute access on the stored null
raises `AttributeError` instead of yielding the sentinel. -/
theorem C3_null_stored_bare (es : List (String × Value)) (key : Option String)
    (k2 : String) :
    convertValue .vnone = .vnone ∧
    processValue es key .vnone = .vnone ∧
    pyTruthy .vnone = false ∧
    (∀ v, plainB v = true → (eqNone (convertValue v) = true ↔ convertValue v = .vnone)) ∧
    getattrValue .vnone k2 = .attrError := by
  refine ⟨rfl, rfl, rfl, ?_, rfl⟩
  intro v hv
  cases v <;> simp [convertValue, eqNone] <;> simp [plainB] at hv

theorem C3_null_stored_bare_witness :
    plainB (.vint 2) = true ∧
    (eqNone (convertValue (.vint 2)) = true ↔ convertValue (.vint 2) = .vnone) ∧
    getattrValue .vnone "y" = .attrError :=
  ⟨rfl, (C3_null_stored_bare [] none "y").2.2.2.1 (.vint 2) rfl,
    (C3_null_stored_bare [] none "y").2.2.2.2⟩

/-- C4: when a data key collides with a reserved enumeration name (`keys`,
`values`, `items`), attribute access under that name returns the stored data
value, while the class-level enumeration operation of the same name remains
callable on the node (modelled as `dict.keys(node)` etc.) and still
enumerates all entries. -/
theorem C4_data_key_shadows_method (es : List (String × Value)) (k : String)
    (v : Value) (h1 : k ∈ (["keys", "values", "items"] : List String))
    (h2 : lookupKey es k = some v) :
    getattrValue (.config es) k = .val v ∧
    (callDictMethod k es).isSome = true := by
  fin_cases h1 <;>
    simp [getattrValue, getattrConfig, reservedNames, underscoreFirst,
      callDictMethod, h2]

theorem C4_data_key_shadows_method_witness :
    ("keys" ∈ (["keys", "values", "items"] : List String)) ∧
    lookupKey [("keys", .vint 7)] "keys" = some (.vint 7) ∧
    (getattrValue (.config [("keys", .vint 7)]) "keys" = .val (.vint 7) ∧
      (callDictMethod "keys" [("keys", .vint 7)]).isSome = true) :=
  ⟨by decide, rfl,
    C4_data_key_shadows_method [("keys", .vint 7)] "keys" (.vint 7) (by decide) rfl⟩

/-- C5: overwriting a key that currently holds a TemplateValue with a numeric
value stores `StringTemplate(str(n))` (core.py line 246-247) — both at the
`_process_value` level and through the full `__setitem__` store — and
rendering that stored value against any bindings (any engine fixing
Jinja-free strings) returns exactly the numeric value's string form. -/
theorem C5_numeric_overwrite_still_renders (es : List (String × Value))
    (k : String) (n : Int) (s : String) (expand : String → String)
    (hk : lookupKey es k = some (.tmpl s))
    (hbk : bkNames.contains k = false)
    (hexp : ∀ t, braceFree t = true → expand t = t) :
    processValue es (some k) (.vint n) = .tmpl (intStr n) ∧
    setItem es k (.vint n) = setEntry es k (.tmpl (intStr n)) ∧
    renderTmpl (intStr n) expand = intStr n := by
  have ht : holdsTemplate es (some k) = true := by
    simp [holdsTemplate, hk]
  have hp : processValue es (some k) (.vint n) = .tmpl (intStr n) := by
    simp [processValue, ht]
  have hbk' : k ∉ bkNames := by
    intro hm
    rw [show bkNames.contains k = List.elem k bkNames from rfl] at hbk
    exact absurd (List.elem_iff.2 hm) (by rw [hbk]; exact Bool.false_ne_true)
  refine ⟨hp, ?_, ?_⟩
  · simp [setItem, hbk', hp]
  · unfold renderTmpl
    simp [hexp (intStr n) (intStr_braceFree n),
      braceFree_no_marker _ (intStr_braceFree n)]

theorem C5_numeric_overwrite_still_renders_witness :
    lookupKey [("a", .tmpl "x")] "a" = some (.tmpl "x") ∧
    bkNames.contains "a" = false ∧
    (∀ t, braceFree t = true → id t = t) ∧
    (processValue [("a", .tmpl "x")] (some "a") (.vint 5) = .tmpl (intStr 5) ∧
      setItem [("a", .tmpl "x")] "a" (.vint 5) =
        setEntry [("a", .tmpl "x")] "a" (.tmpl (intStr 5)) ∧
      renderTmpl (intStr 5) id = intStr 5) :=
  ⟨rfl, rfl, fun _ _ => rfl,
    C5_numeric_overwrite_still_renders [("a", .tmpl "x")] "a" 5 "x" id rfl rfl
      (fun _ _ => rfl)⟩

/-- C6: `render` expands the source once, re-expands the intermediate result
(against the same engine-with-bindings) only when it still contains the
double-brace marker, repeats that at most once more — three passes maximum —
and returns the final string.  The embedding is a pure function of the stored
source and the engine, reflecting that the code never reassigns
`raw_string` and copies `kwargs`, so neither is mutated. -/
theorem C6_render_bounded_passes (src : String) (expand : String → String) :
    ∃ k, 1 ≤ k ∧ k ≤ 3 ∧ renderTmpl src expand = expand^[k] src ∧
      (2 ≤ k ↔ hasDoubleBrace (expand src).data = true) ∧
      (k = 3 ↔ (hasDoubleBrace (expand src).data = true ∧
        hasDoubleBrace (expand (expand src)).data = true)) := by
  by_cases h1 : hasDoubleBrace (expand src).data = true
  · by_cases h2 : hasDoubleBrace (expand (expand src)).data = true
    · refine ⟨3, by omega, by omega, ?_, by simp [h1], by simp [h1, h2]⟩
      show renderTmpl src expand = expand (expand (expand src))
      simp [renderTmpl, h1, h2]
    · refine ⟨2, by omega, by omega, ?_, by simp [h1], by simp [h2]⟩
      show renderTmpl src expand = expand (expand src)
      simp [renderTmpl, h1, h2]
  · refine ⟨1, by omega, by omega, ?_, by simp [h1], by simp [h1]⟩
    show renderTmpl src expand = expand src
    simp [renderTmpl, h1]

/-- C7: `dump` raises `TypeError` when its argument is not a `Config`,
raises `ValueError` when neither the explicit argument nor the node's bound
`_yaml_path` resolves to a truthy location; but when writing fails it never
raises — it returns `False` (with a printed diagnostic) — and on success it
returns `True`. -/
theorem C7_dump_error_asymmetry :
    (∀ fp w, dumpModel none fp w = .error .typeError) ∧
    (∀ c fp w, pathTruthy (resolvePath fp c.yamlPath) = false →
      dumpModel (some c) fp w = .error .valueError) ∧
    (∀ c fp, pathTruthy (resolvePath fp c.yamlPath) = true →
      dumpModel (some c) fp true = .ok true ∧
      dumpModel (some c) fp false = .ok false) := by
  refine ⟨fun _ _ => rfl, ?_, ?_⟩
  · intro c fp w h
    simp [dumpModel, h]
  · intro c fp h
    constructor <;> simp [dumpModel, h]

theorem C7_dump_error_asymmetry_witness :
    dumpModel none none true = .error .typeError ∧
    pathTruthy (resolvePath none (some "cfg.yaml")) = true ∧
    dumpModel (some ⟨[], some "cfg.yaml"⟩) none false = .ok false ∧
    dumpModel (some ⟨[], some "cfg.yaml"⟩) none true = .ok true ∧
    pathTruthy (resolvePath none none) = false ∧
    dumpModel (some ⟨[], none⟩) none true = .error .valueError :=
  ⟨C7_dump_error_asymmetry.1 none true, rfl,
    (C7_dump_error_asymmetry.2.2 ⟨[], some "cfg.yaml"⟩ none rfl).2,
    (C7_dump_error_asymmetry.2.2 ⟨[], some "cfg.yaml"⟩ none rfl).1, rfl,
    C7_dump_error_asymmetry.2.1 ⟨[], none⟩ none true rfl⟩

/-- C8: `load` never raises: a missing location yields an empty tree bound
to the location with no diagnostic; an existing location that fails to parse
yields an empty tree bound to the location with a diagnostic; a successfully
parsed mapping yields the `Config.__init__`-converted tree bound to the
location; and in every case the result is bound to the location. -/
theorem C8_load_never_raises (p : String) :
    loadModel .missing p = (⟨[], some p⟩, false) ∧
    loadModel .unparsable p = (⟨[], some p⟩, true) ∧
    (∀ es, loadModel (.parsed (.vdict es)) p = (⟨initConfig es, some p⟩, false)) ∧
    (∀ src, ((loadModel src p).1).yamlPath = some p) := by
  refine ⟨rfl, rfl, ?_, ?_⟩
  · intro es
    cases es with
    | nil => rfl
    | cons e rest => simp [loadModel, pyTruthy, dictCoerce]
  · intro src
    cases src with
    | missing => rfl
    | unparsable => rfl
    | parsed d =>
      unfold loadModel
      cases hdc : dictCoerce (if pyTruthy d then d else .vdict []) <;> simp [hdc]

/-- C10: serialization silently omits every data key whose name begins with
an underscore: the serialized key list is exactly the stored key list with
underscore-prefixed names filtered out (order preserved), an
underscore-prefixed key can never be looked up in the serialized output, and
— at every nesting level of wrapped mappings — the serialized form of a
converted tree contains no underscore-prefixed mapping key at all.  Since
`dump` writes `_to_serializable()`'s output, data stored under such keys
does not survive a dump/reload round trip. -/
theorem C10_serializer_drops_underscore_keys :
    (∀ es, keysOf (toSerializable es) =
      (keysOf es).filter (fun k => !underscoreFirst k)) ∧
    (∀ es k, underscoreFirst k = true → lookupKey (toSerializable es) k = none) ∧
    (∀ v, convertedB v = true → serNoUnderscoreB (serializeVal v) = true) :=
  ⟨keysOf_toSerializable, lookup_toSerializable_underscore,
    serialize_no_underscore_val⟩

theorem C10_serializer_drops_underscore_keys_witness :
    underscoreFirst "_secret" = true ∧
    lookupKey (toSerializable [("_secret", .tmpl "v"), ("a", .vnone)]) "_secret" =
      none ∧
    convertedB (.config [("_secret", .tmpl "v")]) = true ∧
    serNoUnderscoreB (serializeVal (.config [("_secret", .tmpl "v")])) = true :=
  ⟨rfl,
    C10_serializer_drops_underscore_keys.2.1
      [("_secret", .tmpl "v"), ("a", .vnone)] "_secret" rfl, rfl,
    C10_serializer_drops_underscore_keys.2.2 (.config [("_secret", .tmpl "v")]) rfl⟩
